import Mathlib

/-!
Verification of the twinkle_coder_eval core: the pass@k score estimator
(`tools/utils.py`), the verdict grouping (`tools/utils.py`), the concurrent
orchestrator (`evaluate.py`), the Windows executor and its safety guard
(`eval/execution_windows.py`).  Numeric code is embedded over `ℚ` (the Python
floats compute the same product form exactly on these rationals); stateful and
exception-raising code is embedded as total functions into `Except`.
-/

namespace TwinkleCoderEval

/-! ## ScoreEstimator (`tools/utils.py`, `estimate_pass_at_k`) -/

/-- Embedding of the inner `estimator(n, c, k)` of `estimate_pass_at_k`
(`tools/utils.py` lines 281-287):

```python
if n - c < k:
    return 1.0
return 1.0 - np.prod(1.0 - k / np.arange(n - c + 1, n + 1))
```

Python integers are unbounded and signed, so the guard `n - c < k` is taken in
`ℤ`; in the product branch `n - c ≥ k ≥ 0` holds, so the `ℕ` subtraction in the
index range agrees with Python.  `np.arange(n - c + 1, n + 1)` is the integer
range `[n-c+1, n]`, i.e. `Finset.Ico (n-c+1) (n+1)`. -/
def estimator (n c k : ℕ) : ℚ :=
  if (n : ℤ) - (c : ℤ) < (k : ℤ) then 1
  else 1 - ∏ i in Finset.Ico (n - c + 1) (n + 1), (1 - (k : ℚ) / (i : ℚ))

/-- Embedding of `estimate_pass_at_k` (`tools/utils.py` lines 272-295) for a
scalar `num_samples` (the `isinstance(num_samples, int)` branch, which repeats
`n` for every task): the per-task array of `estimator(n, c, k)`. -/
def estimate_pass_at_k (num_samples : ℕ) (num_correct : List ℕ) (k : ℕ) : List ℚ :=
  num_correct.map (fun c => estimator num_samples c k)

/-- Embedding of `np.mean` as used at `evaluate.py` line 293 to turn the
per-task pass@k array into the final benchmark score. -/
def mean (l : List ℚ) : ℚ := l.sum / (l.length : ℚ)

/-! ## Orchestrator (`evaluate.py`, `multi_process_function`) -/

/-- Embedding of the worker-count clamp at `evaluate.py` lines 32-33:

```python
if num_workers > len(parameters_per_node) or num_workers > os.cpu_count():
    num_workers = min(os.cpu_count(), len(parameters_per_node))
```

`cpu_count` stands for `os.cpu_count()` (the hardware parallelism). -/
def multi_process_effective_workers {α : Type} (num_workers cpu_count : ℕ)
    (parameters_per_node : List α) : ℕ :=
  if num_workers > parameters_per_node.length ∨ num_workers > cpu_count then
    min cpu_count parameters_per_node.length
  else num_workers

/-- Embedding of the submit/collect loop of `multi_process_function`
(`evaluate.py` lines 36-44).  Each job is submitted to the pool and
`future.result()` is called on every future; `future.result()` re-raises any
exception the worker's execution of `function(param)` raised, and the loop has
no `try`/`except`, so the first re-raised exception propagates.  A worker is
modelled as `f : α → Except String β` (`Except.error` = the call raised);
`as_completed` yields futures in a nondeterministic completion order, modelled
here as submission order — which results are collected and whether an
exception escapes do not depend on the order. -/
def collect_results {α β : Type} (f : α → Except String β) :
    List α → Except String (List β)
  | [] => Except.ok []
  | job :: rest =>
    match f job with
    | Except.error e => Except.error e
    | Except.ok r =>
      match collect_results f rest with
      | Except.error e => Except.error e
      | Except.ok rs => Except.ok (r :: rs)

/-- Embedding of `multi_process_function` (`evaluate.py` lines 15-45): clamp
the worker count, construct the pool, then submit and collect.
`ThreadPoolExecutor(num_workers)` raises
`ValueError("max_workers must be greater than 0")` when the clamped count is
`0` — in particular whenever the job list is empty, since the clamp then
yields `min(os.cpu_count(), 0) = 0` — and nothing in the function catches
it. -/
def multi_process_function {α β : Type} (num_workers cpu_count : ℕ)
    (f : α → Except String β) (jobs : List α) : Except String (List β) :=
  if multi_process_effective_workers num_workers cpu_count jobs = 0 then
    Except.error "ValueError: max_workers must be greater than 0"
  else collect_results f jobs

/-! ## Executor (`eval/execution_windows.py`, `check_correctness_windows`) -/

/-- Behaviour of `exec(check_program, exec_globals)` on one job's program
text: the program returns cleanly, raises an uncaught exception that is an
instance of `Exception` (stringified message), or raises a `BaseException`
outside `Exception` — `SystemExit` (e.g. `sys.exit()`, which the guard does
not null, unlike `builtins.exit`) or `KeyboardInterrupt` — which no
`except Exception` handler in the executor catches. -/
inductive ProgOutcome : Type
  | clean : ProgOutcome
  | raised : String → ProgOutcome
  | raisedBase : String → ProgOutcome
deriving DecidableEq

/-- Environment of one `check_correctness_windows` run, capturing each point
of its source where an exception can arise or time can run out:
`poolFailure` — the `with ThreadPoolExecutor(...)` block itself raises (outer
`except Exception`); `timedOut` — `future.result(timeout=time_out)` raises
`TimeoutError` because `execute_in_isolation` did not finish within
`time_out`; `tempDir` — `tempfile.TemporaryDirectory()` / `os.chdir` raise
(caught by `execute_in_isolation`'s outer `except`); `guard` —
`apply_windows_safety_guard()` raises (caught by the inner `except`);
`prog` — the outcome of `exec` on the program text. -/
structure ExecEnv : Type where
  poolFailure : Option String
  timedOut : Bool
  tempDir : Except String Unit
  guard : Except String Unit
  prog : ProgOutcome

/-- Embedding of the inner `execute_in_isolation()` closure
(`eval/execution_windows.py` lines 38-71): every `Exception` in
scratch-directory setup, guard installation or the `exec` of the program is
caught by one of its two `except Exception` handlers and mapped to the
return string `"failed: " ++ str(e)`; a clean `exec` yields `"passed"`.
A `BaseException` outside `Exception` raised by the program (`SystemExit`,
`KeyboardInterrupt`) matches neither handler and escapes the closure
(`Except.error`, after the `finally: os.chdir(original_cwd)` runs). -/
def execute_in_isolation (env : ExecEnv) : Except String String :=
  match env.tempDir with
  | Except.error e => Except.ok ("failed: " ++ e)
  | Except.ok _ =>
    match env.guard with
    | Except.error e => Except.ok ("failed: " ++ e)
    | Except.ok _ =>
      match env.prog with
      | ProgOutcome.clean => Except.ok "passed"
      | ProgOutcome.raised e => Except.ok ("failed: " ++ e)
      | ProgOutcome.raisedBase e => Except.error e

/-- The verdict dict built at `eval/execution_windows.py` lines 86-92. -/
structure Verdict : Type where
  task_id : ℕ
  completion_id : ℕ
  passed : Bool
  result : String
  solution : String
deriving DecidableEq

/-- Embedding of `check_correctness_windows` (`eval/execution_windows.py`
lines 26-92): runs `execute_in_isolation` under `future.result(timeout)`,
maps a deadline expiry (`except concurrent.futures.TimeoutError`) to
`"timed out"`, wraps the pool block in a final `except Exception`
(`"failed: " ++ str(e)`), and returns the verdict dict with
`task_id`/`completion_id` copied from the job and
`passed = (result == "passed")`.  When the closure escapes with a
`BaseException` outside `Exception`, `future.result()` re-raises it (the
worker machinery stores `BaseException`), neither `except TimeoutError` nor
either `except Exception` matches, and `check_correctness_windows` raises to
its caller with no verdict (`Except.error`).  If the deadline expires first,
`future.result(timeout=time_out)` raises `TimeoutError` before any stored
exception is consulted, so the verdict is `"timed out"` irrespective of what
the abandoned worker later does. -/
def check_correctness_windows (env : ExecEnv) (task_id completion_id : ℕ)
    (solution : String) : Except String Verdict :=
  let mkVerdict : String → Except String Verdict := fun result =>
    Except.ok
      { task_id := task_id
        completion_id := completion_id
        passed := result == "passed"
        result := result
        solution := solution }
  match env.poolFailure with
  | some e => mkVerdict ("failed: " ++ e)
  | none =>
    if env.timedOut then mkVerdict "timed out"
    else
      match execute_in_isolation env with
      | Except.error e => Except.error e
      | Except.ok r => mkVerdict r

/-- Environment of a run whose scratch-directory creation raises: the
`tempfile.TemporaryDirectory()` call fails, everything else is healthy. -/
def brokenTempDirEnv : ExecEnv :=
  { poolFailure := none
    timedOut := false
    tempDir := Except.error "cannot create scratch dir"
    guard := Except.ok ()
    prog := ProgOutcome.clean }

/-- Environment of a run whose program calls `sys.exit(1)` before the
deadline: `exec` raises `SystemExit`, a `BaseException` outside `Exception`
(the guard nulls `builtins.exit` and `builtins.quit` but not `sys.exit`). -/
def sysExitEnv : ExecEnv :=
  { poolFailure := none
    timedOut := false
    tempDir := Except.ok ()
    guard := Except.ok ()
    prog := ProgOutcome.raisedBase "SystemExit: 1" }

/-- Environment of a fully healthy run: scratch directory and guard succeed,
the program completes cleanly within the deadline. -/
def cleanEnv : ExecEnv :=
  { poolFailure := none
    timedOut := false
    tempDir := Except.ok ()
    guard := Except.ok ()
    prog := ProgOutcome.clean }

/-! ## SafetyGuard (`eval/execution_windows.py`, `apply_windows_safety_guard`) -/

/-- Host/process environment of one `apply_windows_safety_guard` call:
whether `platform.system() == "Windows"`, whether `import resource` succeeds
(`false` models the `ImportError` that the function catches with `pass`),
whether one of the `resource.setrlimit` calls raises some non-`ImportError`
exception (such as `ValueError` when the requested limit exceeds the hard
limit) with its stringified message, and whether the os-module-global
`os.putenv` has already been set to `None` by a previous guard installation
in this process. -/
structure GuardEnv : Type where
  isWindows : Bool
  resourceImportOk : Bool
  setrlimitFailure : Option String
  putenvDisabled : Bool

/-- Embedding of `apply_windows_safety_guard` (`eval/execution_windows.py`
lines 126-210).  The memory-limit block runs first, only when
`maximum_memory_bytes is not None` and the platform is not Windows; its
`try`/`except` catches only `ImportError`, so a `setrlimit` failure of any
other class propagates (`Except.error`).  Then `faulthandler.disable()` and
the `builtins.exit`/`builtins.quit` assignments cannot raise; next,
`os.environ["OMP_NUM_THREADS"] = "1"` goes through `os._Environ.__setitem__`,
which calls the module-global `os.putenv` — set to `None` a few lines further
down by every guard installation — so when a previous installation in this
process has already run (`putenvDisabled`), this statement raises
`TypeError: 'NoneType' object is not callable`.  Otherwise the remaining
`os`/`shutil`/`subprocess`/`sys` attribute stores and the
`__builtins__["help"] = None` dict store (the module is imported, so
`__builtins__` is a dict) cannot raise, and the call returns with
`os.putenv` now disabled — the updated process state. -/
def apply_windows_safety_guard (env : GuardEnv)
    (maximum_memory_bytes : Option ℕ) : Except String GuardEnv :=
  let resource_block : Except String Unit :=
    match maximum_memory_bytes with
    | none => Except.ok ()
    | some _ =>
      if env.isWindows then Except.ok ()
      else if env.resourceImportOk then
        match env.setrlimitFailure with
        | some e => Except.error e
        | none => Except.ok ()
      else Except.ok ()
  match resource_block with
  | Except.error e => Except.error e
  | Except.ok _ =>
    if env.putenvDisabled then
      Except.error "TypeError: 'NoneType' object is not callable"
    else
      Except.ok { env with putenvDisabled := true }

/-- Process state for a first guard installation on a POSIX host where the
requested memory limit is rejected by `resource.setrlimit` with a
`ValueError`. -/
def setrlimitFailEnv : GuardEnv :=
  { isWindows := false
    resourceImportOk := true
    setrlimitFailure := some "ValueError: current limit exceeds maximum limit"
    putenvDisabled := false }

/-- Process state before any guard installation on a healthy POSIX host:
`os.putenv` is still the real function. -/
def freshGuardEnv : GuardEnv :=
  { isWindows := false
    resourceImportOk := true
    setrlimitFailure := none
    putenvDisabled := false }

/-! ## I/O redirection (`eval/execution_windows.py`, `WriteOnlyStringIO`) -/

/-- Embedding of `WriteOnlyStringIO` (`eval/execution_windows.py` lines
104-119): a `StringIO` carrying a text buffer whose three read methods are
overridden to `raise IOError` unconditionally, and whose `readable()` returns
`False`. -/
structure WriteOnlyStringIO : Type where
  buffer : String

/-- `WriteOnlyStringIO.write` appends to the underlying `StringIO` buffer
(inherited, not overridden). -/
def WriteOnlyStringIO.write (s : WriteOnlyStringIO) (txt : String) :
    WriteOnlyStringIO :=
  ⟨s.buffer ++ txt⟩

/-- `WriteOnlyStringIO.read`: `raise IOError`. -/
def WriteOnlyStringIO.read (_ : WriteOnlyStringIO) : Except String String :=
  Except.error "IOError"

/-- `WriteOnlyStringIO.readline`: `raise IOError`. -/
def WriteOnlyStringIO.readline (_ : WriteOnlyStringIO) : Except String String :=
  Except.error "IOError"

/-- `WriteOnlyStringIO.readlines`: `raise IOError`. -/
def WriteOnlyStringIO.readlines (_ : WriteOnlyStringIO) :
    Except String (List String) :=
  Except.error "IOError"

/-- `WriteOnlyStringIO.readable`: returns `False`. -/
def WriteOnlyStringIO.readable (_ : WriteOnlyStringIO) : Bool := false

/-- The stream bindings installed by the `redirect_io` context manager
(`eval/execution_windows.py` lines 95-101) for the duration of the `exec`. -/
structure IOContext : Type where
  stdin_stream : WriteOnlyStringIO
  stdout_stream : WriteOnlyStringIO
  stderr_stream : WriteOnlyStringIO

/-- Embedding of `redirect_io`: one fresh `WriteOnlyStringIO` is bound to
`sys.stdout`, `sys.stderr` and (via `redirect_stdin`) `sys.stdin`. -/
def redirect_io : IOContext :=
  let stream : WriteOnlyStringIO := ⟨""⟩
  ⟨stream, stream, stream⟩

/-! ## Verdict grouping (`tools/utils.py`, `group_and_count`) -/

/-- One evaluation record as consumed by `group_and_count` at its call site
`evaluate.py` line 292 (`group_key='task_id'`, `count_key='passed'`): a dict
whose `task_id` key (of some type `α`) and boolean `passed` key may each be
absent — `item.get` then returns `None`, modelled by `Option`. -/
structure EvalRecord (α : Type) : Type where
  task_id : Option α
  passed : Option Bool

/-- One iteration of the loop body of `group_and_count` (`tools/utils.py`
lines 259-270) on the insertion-ordered dict `grouped_counts`, modelled as an
association list with distinct keys in insertion order:

```python
group = item.get(group_key)
if group not in grouped_counts:
    grouped_counts[group] = 0
if item.get(count_key) == True:
    grouped_counts[group] += 1
```

For a record produced by the executor, `passed` is a real `bool`, so the
Python comparison `== True` is `passed = some true`. -/
def group_step {α : Type} [DecidableEq α] (acc : List (Option α × ℕ))
    (item : EvalRecord α) : List (Option α × ℕ) :=
  let acc1 := if item.task_id ∈ acc.map Prod.fst then acc
    else acc ++ [(item.task_id, 0)]
  if item.passed = some true then
    acc1.map (fun p => if p.1 = item.task_id then (p.1, p.2 + 1) else p)
  else acc1

/-- Embedding of `group_and_count` (`tools/utils.py` lines 259-270),
specialised to its call site's keys: fold the loop body over the record list
starting from the empty dict, then return `list(grouped_counts.values())` —
the counts in key-insertion order (Python 3.7+ dicts preserve insertion
order). -/
def group_and_count {α : Type} [DecidableEq α] (lst : List (EvalRecord α)) :
    List ℕ :=
  (lst.foldl group_step []).map Prod.snd

/-- Specification-side helper for C10: the distinct `task_id` values of the
record list, in order of first appearance. -/
def firstKeys {α : Type} [DecidableEq α] (lst : List (EvalRecord α)) :
    List (Option α) :=
  lst.foldl (fun ks it => if it.task_id ∈ ks then ks else ks ++ [it.task_id]) []

/-- Specification-side helper for C10: how many records carry the given
`task_id` and have `passed` exactly `True`. -/
def passCount {α : Type} [DecidableEq α] (lst : List (EvalRecord α))
    (g : Option α) : ℕ :=
  (lst.filter (fun it => it.task_id = g ∧ it.passed = some true)).length

/-- The product form telescopes to a ratio of binomial coefficients:
`∏_{i=m+1}^{n} (1 - k/i) = C(m,k) / C(n,k)` for `k ≤ m ≤ n`. -/
lemma prod_one_sub_div_eq_choose_div (k : ℕ) :
    ∀ n m : ℕ, m ≤ n → k ≤ m →
      (∏ i in Finset.Ico (m + 1) (n + 1), (1 - (k : ℚ) / (i : ℚ)))
        = (m.choose k : ℚ) / (n.choose k : ℚ) := by
  intro n
  induction n with
  | zero =>
    intro m hm hk
    interval_cases m
    interval_cases k
    simp
  | succ n ih =>
    intro m hm hk
    rcases Nat.eq_or_lt_of_le hm with hEq | hLt
    · subst hEq
      have hpos : 0 < (n + 1).choose k := Nat.choose_pos hk
      rw [Finset.Ico_self, Finset.prod_empty]
      rw [div_self (by exact_mod_cast hpos.ne')]
    · have hmn : m ≤ n := Nat.lt_succ_iff.mp hLt
      have hstep : m + 1 ≤ n + 1 := Nat.succ_le_succ hmn
      rw [Finset.prod_Ico_succ_top hstep]
      rw [ih m hmn hk]
      have hkn : k ≤ n := le_trans hk hmn
      have hc_n : (0 : ℚ) < (n.choose k : ℚ) := by exact_mod_cast Nat.choose_pos hkn
      have hc_sn : (0 : ℚ) < ((n + 1).choose k : ℚ) := by
        exact_mod_cast Nat.choose_pos (le_trans hkn (Nat.le_succ n))
      have hn1 : (0 : ℚ) < ((n : ℚ) + 1) := by positivity
      have hkey : (n.choose k : ℚ) * ((n : ℚ) + 1)
          = ((n + 1).choose k : ℚ) * (((n : ℚ) + 1) - (k : ℚ)) := by
        have h := Nat.choose_mul_succ_eq n k
        have hcast : ((n + 1 - k : ℕ) : ℚ) = ((n : ℚ) + 1) - (k : ℚ) := by
          push_cast [Nat.cast_sub (le_trans hkn (Nat.le_succ n))]
          ring
        calc (n.choose k : ℚ) * ((n : ℚ) + 1)
            = ((n.choose k * (n + 1) : ℕ) : ℚ) := by push_cast; ring
          _ = (((n + 1).choose k * (n + 1 - k) : ℕ) : ℚ) := by rw [h]
          _ = ((n + 1).choose k : ℚ) * (((n : ℚ) + 1) - (k : ℚ)) := by
              push_cast [Nat.cast_sub (le_trans hkn (Nat.le_succ n))]; ring
      have hcast1 : ((n + 1 : ℕ) : ℚ) = (n : ℚ) + 1 := by push_cast; ring
      rw [hcast1]
      field_simp
      ring_nf
      ring_nf at hkey
      nlinarith [hkey]

/-- **C1.** For every task, with `n = num_samples`, `c` the task's pass count
and `1 ≤ k ≤ n`, the per-task pass@k computed by `estimate_pass_at_k`'s
`estimator` equals `1 - C(n-c, k) / C(n, k)` when `n - c ≥ k`, equals exactly
`1` when `n - c < k`, and in the former case it is computed via the product
form `1 - ∏_{i=n-c+1}^{n} (1 - k/i)`. -/
theorem estimate_pass_at_k_formula (n c k : ℕ) (hc : c ≤ n) (hk1 : 1 ≤ k) (hkn : k ≤ n) :
    (k ≤ n - c →
      estimator n c k = 1 - ((n - c).choose k : ℚ) / (n.choose k : ℚ) ∧
      estimator n c k = 1 - ∏ i in Finset.Ico (n - c + 1) (n + 1), (1 - (k : ℚ) / (i : ℚ))) ∧
    (n - c < k → estimator n c k = 1) := by
  constructor
  · intro hknc
    have hbranch : ¬ ((n : ℤ) - (c : ℤ) < (k : ℤ)) := by omega
    rw [estimator, if_neg hbranch]
    refine ⟨?_, rfl⟩
    rw [prod_one_sub_div_eq_choose_div k n (n - c) (Nat.sub_le n c) hknc]
  · intro h
    rw [estimator, if_pos (by omega)]

theorem estimate_pass_at_k_formula_witness :
    (1 : ℕ) ≤ 3 ∧ estimator 3 1 2 = 1 - ((3 - 1).choose 2 : ℚ) / (Nat.choose 3 2 : ℚ) :=
  ⟨by decide, ((estimate_pass_at_k_formula 3 1 2 (by decide) (by decide) (by decide)).1
    (by decide)).1⟩

/-- **C5.** For fixed `num_samples` `n` and pass count `c`, the per-task
pass@k returned by `estimate_pass_at_k`'s `estimator` is monotonically
non-decreasing in `k`: for all `1 ≤ k < n`, pass@k ≤ pass@(k+1). -/
theorem estimator_mono_in_k (n c k : ℕ) (hk1 : 1 ≤ k) (hkn : k < n) :
    estimator n c k ≤ estimator n c (k + 1) := by
  unfold estimator
  by_cases h1 : (n : ℤ) - (c : ℤ) < (k : ℤ)
  · have h2 : (n : ℤ) - (c : ℤ) < ((k + 1 : ℕ) : ℤ) := by push_cast; omega
    rw [if_pos h1, if_pos h2]
  · by_cases h2 : (n : ℤ) - (c : ℤ) < ((k + 1 : ℕ) : ℤ)
    · have hnc : n - c = k := by omega
      rw [if_neg h1, if_pos h2]
      have hprod : 0 ≤ ∏ i in Finset.Ico (n - c + 1) (n + 1), (1 - (k : ℚ) / (i : ℚ)) := by
        apply Finset.prod_nonneg
        intro i hi
        rw [Finset.mem_Ico] at hi
        have hik : k < i := by omega
        have hipos : (0 : ℚ) < (i : ℚ) := by exact_mod_cast (by omega : 0 < i)
        have hle : (k : ℚ) / (i : ℚ) ≤ 1 := by
          rw [div_le_one hipos]
          exact_mod_cast le_of_lt hik
        linarith
      linarith
    · rw [if_neg h1, if_neg h2]
      have hnck : k + 1 ≤ n - c := by omega
      have key : (∏ i in Finset.Ico (n - c + 1) (n + 1), (1 - ((k + 1 : ℕ) : ℚ) / (i : ℚ)))
          ≤ ∏ i in Finset.Ico (n - c + 1) (n + 1), (1 - (k : ℚ) / (i : ℚ)) := by
        apply Finset.prod_le_prod
        · intro i hi
          rw [Finset.mem_Ico] at hi
          have hik : k + 1 ≤ i := by omega
          have hipos : (0 : ℚ) < (i : ℚ) := by exact_mod_cast (by omega : 0 < i)
          have hle : ((k + 1 : ℕ) : ℚ) / (i : ℚ) ≤ 1 := by
            rw [div_le_one hipos]
            exact_mod_cast hik
          linarith
        · intro i hi
          rw [Finset.mem_Ico] at hi
          have hipos : (0 : ℚ) < (i : ℚ) := by exact_mod_cast (by omega : 0 < i)
          have hdiv : (k : ℚ) / (i : ℚ) ≤ ((k + 1 : ℕ) : ℚ) / (i : ℚ) := by
            apply div_le_div_of_nonneg_right ?_ hipos.le
            push_cast
            linarith
          linarith
      linarith

theorem estimator_mono_in_k_witness :
    (1 : ℕ) ≤ 1 ∧ (1 : ℕ) < 4 ∧ estimator 4 2 1 ≤ estimator 4 2 2 :=
  ⟨by decide, by decide, estimator_mono_in_k 4 2 1 (by decide) (by decide)⟩

/-- **C7.** `estimate_pass_at_k` with scalar `num_samples = 2`, pass counts
`[1, 0]` and `k = 1` returns the per-task scores `[1/2, 0]`, and the final
benchmark score — the arithmetic mean of the per-task pass@k values, as
computed by `np.mean` at `evaluate.py` line 293 — equals `1/4`. -/
theorem estimate_pass_at_1_example :
    estimate_pass_at_k 2 [1, 0] 1 = [1/2, 0] ∧
    mean (estimate_pass_at_k 2 [1, 0] 1) = 1/4 := by
  have h1 : estimator 2 1 1 = 1/2 := by
    rw [estimator, if_neg (by norm_num)]
    rw [show (2 : ℕ) - 1 + 1 = 2 from rfl]
    rw [Finset.prod_Ico_succ_top (by norm_num : 2 ≤ 2), Finset.Ico_self, Finset.prod_empty]
    norm_num
  have h0 : estimator 2 0 1 = 0 := by
    rw [estimator, if_neg (by norm_num)]
    rw [show (2 : ℕ) - 0 + 1 = 3 from rfl, Finset.Ico_self, Finset.prod_empty]
    norm_num
  constructor
  · simp [estimate_pass_at_k, h1, h0]
  · simp [estimate_pass_at_k, mean, h1, h0]
    norm_num

lemma failed_prefix_ne_passed (e : String) : ("failed: " ++ e) ≠ "passed" := by
  intro h
  have hlen := congrArg String.length h
  rw [String.length_append] at hlen
  have h8 : ("failed: " : String).length = 8 := rfl
  have h6 : ("passed" : String).length = 6 := rfl
  omega

lemma timedout_ne_passed : ("timed out" : String) ≠ "passed" := by decide

/-- **C2 — counterexample.** The claim says every job in the submitted list
yields exactly one result, a worker exception being caught and converted to an
`error` verdict.  In the code, `future.result()` re-raises the worker's
exception with no surrounding `try`/`except`: with three jobs of which the
second raises, the batch is aborted with that exception and no result list is
returned at all; and with an empty job list the clamped worker count is `0`,
so `ThreadPoolExecutor(0)` raises `ValueError` before any job runs. -/
theorem multi_process_function_aborts_on_raise :
    multi_process_function 4 8
        (fun n : ℕ => if n = 0 then Except.error "boom" else Except.ok n)
        [1, 0, 2]
      = Except.error "boom" ∧
    multi_process_function 4 8 (fun n : ℕ => Except.ok n) ([] : List ℕ)
      = Except.error "ValueError: max_workers must be greater than 0" ∧
    ¬ ∃ rs : List ℕ,
      multi_process_function 4 8
          (fun n : ℕ => if n = 0 then Except.error "boom" else Except.ok n)
          [1, 0, 2]
        = Except.ok rs := by
  refine ⟨rfl, rfl, ?_⟩
  rintro ⟨rs, h⟩
  rw [show multi_process_function 4 8
      (fun n : ℕ => if n = 0 then Except.error "boom" else Except.ok n)
      [1, 0, 2] = Except.error "boom" from rfl] at h
  exact Except.noConfusion h

/-- **C2 — amended.** When the clamped worker count
`min(num_workers, os.cpu_count(), len(jobs))` is nonzero (so
`ThreadPoolExecutor` construction succeeds; in particular the job list is
nonempty) and no job's execution raises, `multi_process_function` returns one
result per job — a list of the same length as the job list.  When the clamp
yields `0` the pool constructor's `ValueError` propagates, and when a worker
raises its exception propagates and aborts the batch; neither is converted to
an `error` verdict. -/
theorem multi_process_function_ok_of_all_ok {α β : Type}
    (num_workers cpu_count : ℕ) (f : α → Except String β) (jobs : List α)
    (hw : multi_process_effective_workers num_workers cpu_count jobs ≠ 0)
    (h : ∀ j ∈ jobs, ∃ r, f j = Except.ok r) :
    ∃ rs : List β,
      multi_process_function num_workers cpu_count f jobs = Except.ok rs ∧
      rs.length = jobs.length := by
  have hcollect : ∀ l : List α, (∀ j ∈ l, ∃ r, f j = Except.ok r) →
      ∃ rs : List β, collect_results f l = Except.ok rs ∧
        rs.length = l.length := by
    intro l
    induction l with
    | nil => exact fun _ => ⟨[], rfl, rfl⟩
    | cons j rest ih =>
      intro hl
      obtain ⟨r, hr⟩ := hl j (List.mem_cons_self j rest)
      obtain ⟨rs, hrs, hlen⟩ := ih (fun x hx => hl x (List.mem_cons_of_mem j hx))
      refine ⟨r :: rs, ?_, by simp [hlen]⟩
      simp only [collect_results, hr, hrs]
  unfold multi_process_function
  rw [if_neg hw]
  exact hcollect jobs h

theorem multi_process_function_ok_of_all_ok_witness :
    ∃ rs : List ℕ,
      multi_process_function 2 4
          (fun n : ℕ => (Except.ok (n + 1) : Except String ℕ)) [3, 4]
        = Except.ok rs ∧
      rs.length = ([3, 4] : List ℕ).length :=
  multi_process_function_ok_of_all_ok 2 4
    (fun n : ℕ => (Except.ok (n + 1) : Except String ℕ)) [3, 4]
    (by decide) (fun j _ => ⟨j + 1, rfl⟩)

/-- **C3 — counterexample.** The claim maps harness-internal failures (e.g.
the scratch directory could not be created) to outcome `error`, and says the
executor never raises to its caller.  The code's `except Exception` handlers
map harness-internal failures to `"failed: " ++ str(e)` — no `error` outcome
exists anywhere in `check_correctness_windows` — and a program raising
`SystemExit` (a `BaseException`, e.g. via `sys.exit(1)`) escapes every
handler, so `check_correctness_windows` raises to its caller. -/
theorem check_correctness_harness_error_is_failed :
    check_correctness_windows brokenTempDirEnv 0 0 "print(1)"
      = Except.ok
          { task_id := 0
            completion_id := 0
            passed := false
            result := "failed: cannot create scratch dir"
            solution := "print(1)" } ∧
    "failed: cannot create scratch dir" ≠ "error" ∧
    check_correctness_windows sysExitEnv 0 1 "import sys; sys.exit(1)"
      = Except.error "SystemExit: 1" := by
  exact ⟨rfl, by decide, rfl⟩

/-- **C3 — amended.** `check_correctness_windows` maps outcomes as: clean
completion → `"passed"`; an uncaught `Exception` of the program →
`"failed: " ++` the stringified error; deadline expiry → `"timed out"`;
but a harness-internal failure (scratch directory creation included) is also
mapped to `"failed: " ++` the stringified error — there is no separate
`error` outcome — and a program raising a `BaseException` outside `Exception`
(`SystemExit`, `KeyboardInterrupt`) before the deadline escapes every handler,
so the executor raises to its caller instead of producing a verdict.  Every
run either yields one verdict whose result is `"passed"`, `"timed out"` or
`"failed: ..."`, or raises. -/
theorem check_correctness_outcome_map (tid cid : ℕ) (sol : String) :
    (∀ td g pr, ∃ v : Verdict,
      check_correctness_windows ⟨none, true, td, g, pr⟩ tid cid sol
        = Except.ok v ∧ v.result = "timed out") ∧
    (∃ v : Verdict,
      check_correctness_windows
          ⟨none, false, Except.ok (), Except.ok (), ProgOutcome.clean⟩
          tid cid sol
        = Except.ok v ∧ v.result = "passed") ∧
    (∀ e, ∃ v : Verdict,
      check_correctness_windows
          ⟨none, false, Except.ok (), Except.ok (), ProgOutcome.raised e⟩
          tid cid sol
        = Except.ok v ∧ v.result = "failed: " ++ e) ∧
    (∀ e g pr, ∃ v : Verdict,
      check_correctness_windows ⟨none, false, Except.error e, g, pr⟩
          tid cid sol
        = Except.ok v ∧ v.result = "failed: " ++ e) ∧
    (∀ e,
      check_correctness_windows
          ⟨none, false, Except.ok (), Except.ok (), ProgOutcome.raisedBase e⟩
          tid cid sol
        = Except.error e) ∧
    (∀ env : ExecEnv,
      (∃ v : Verdict, check_correctness_windows env tid cid sol = Except.ok v ∧
        (v.result = "passed" ∨ v.result = "timed out" ∨
          ∃ e, v.result = "failed: " ++ e)) ∨
      ∃ e, check_correctness_windows env tid cid sol = Except.error e) := by
  refine ⟨fun td g pr => ⟨_, rfl, rfl⟩, ⟨_, rfl, rfl⟩, fun e => ⟨_, rfl, rfl⟩,
    fun e g pr => ⟨_, rfl, rfl⟩, fun e => rfl, ?_⟩
  intro env
  obtain ⟨pf, tmo, td, g, pr⟩ := env
  cases pf <;> cases tmo <;> cases td <;> cases g <;> cases pr <;>
    first
      | exact Or.inl ⟨_, rfl, Or.inl rfl⟩
      | exact Or.inl ⟨_, rfl, Or.inr (Or.inl rfl)⟩
      | exact Or.inl ⟨_, rfl, Or.inr (Or.inr ⟨_, rfl⟩)⟩
      | exact Or.inr ⟨_, rfl⟩

/-- **C4 — counterexample.** The claim says exactly one verdict record is
produced for every job.  A job whose program raises `SystemExit` (e.g.
`sys.exit(1)` — a `BaseException` that no `except Exception` in the executor
catches) makes `check_correctness_windows` raise to its caller: no verdict is
produced for that job. -/
theorem check_correctness_no_verdict_on_system_exit :
    check_correctness_windows sysExitEnv 3 0 "import sys\nsys.exit(1)"
      = Except.error "SystemExit: 1" ∧
    ¬ ∃ v : Verdict,
      check_correctness_windows sysExitEnv 3 0 "import sys\nsys.exit(1)"
        = Except.ok v := by
  refine ⟨rfl, ?_⟩
  rintro ⟨v, h⟩
  rw [show check_correctness_windows sysExitEnv 3 0 "import sys\nsys.exit(1)"
      = Except.error "SystemExit: 1" from rfl] at h
  exact Except.noConfusion h

/-- **C4 — amended.** Whenever `check_correctness_windows` returns a verdict
(it returns at most one, and raises instead only when the program raises a
`BaseException` outside `Exception`), that verdict's `task_id` and
`completion_id` equal the input job's unmodified, and `passed` is `true` iff
the run reached the program and the program completed with no uncaught
exception and no timeout — i.e. iff the result is the `"passed"` outcome. -/
theorem check_correctness_verdict_fields (env : ExecEnv) (tid cid : ℕ)
    (sol : String) (v : Verdict)
    (h : check_correctness_windows env tid cid sol = Except.ok v) :
    v.task_id = tid ∧ v.completion_id = cid ∧
    (v.passed = true ↔ v.result = "passed") ∧
    (v.passed = true ↔
      env.poolFailure = none ∧ env.timedOut = false ∧
      env.tempDir = Except.ok () ∧ env.guard = Except.ok () ∧
      env.prog = ProgOutcome.clean) := by
  obtain ⟨pf, tmo, td, g, pr⟩ := env
  cases pf <;> cases tmo <;> cases td <;> cases g <;> cases pr <;>
    first
      | exact Except.noConfusion h
      | (injection h with h'
         subst h'
         refine ⟨rfl, rfl, beq_iff_eq, ?_⟩
         simp [failed_prefix_ne_passed, timedout_ne_passed, beq_iff_eq])

theorem check_correctness_verdict_fields_witness :
    (⟨5, 7, true, "passed", "x"⟩ : Verdict).task_id = 5 ∧
    (⟨5, 7, true, "passed", "x"⟩ : Verdict).completion_id = 7 ∧
    ((⟨5, 7, true, "passed", "x"⟩ : Verdict).passed = true ↔
      (⟨5, 7, true, "passed", "x"⟩ : Verdict).result = "passed") ∧
    ((⟨5, 7, true, "passed", "x"⟩ : Verdict).passed = true ↔
      cleanEnv.poolFailure = none ∧ cleanEnv.timedOut = false ∧
      cleanEnv.tempDir = Except.ok () ∧ cleanEnv.guard = Except.ok () ∧
      cleanEnv.prog = ProgOutcome.clean) :=
  check_correctness_verdict_fields cleanEnv 5 7 "x"
    ⟨5, 7, true, "passed", "x"⟩ rfl

/-- **C6.** The effective worker count of `multi_process_function` equals
`min(num_workers, os.cpu_count(), len(parameters_per_node))`: the pool is
never larger than the job count or the hardware parallelism, and a smaller
requested `num_workers` is kept as is. -/
theorem multi_process_effective_workers_eq_min {α : Type}
    (num_workers cpu_count : ℕ) (jobs : List α) :
    multi_process_effective_workers num_workers cpu_count jobs
      = min num_workers (min cpu_count jobs.length) := by
  unfold multi_process_effective_workers
  split <;> omega

/-- **C8 — counterexample.** The claim says guard installation never raises
on any host for any invocation.  Two refutations: (1) installation disables
the os-module-global `os.putenv`, and `os.environ["OMP_NUM_THREADS"] = "1"`
(run by every installation, through `os._Environ.__setitem__`) calls it — so
the first call in a process succeeds but every later one raises `TypeError`,
even with no memory limit requested; (2) the memory-limit block catches only
`ImportError`, so with a memory limit on a non-Windows host whose
`resource.setrlimit` raises `ValueError`, that exception propagates. -/
theorem apply_windows_safety_guard_can_raise :
    apply_windows_safety_guard freshGuardEnv none
      = Except.ok { freshGuardEnv with putenvDisabled := true } ∧
    apply_windows_safety_guard { freshGuardEnv with putenvDisabled := true }
        none
      = Except.error "TypeError: 'NoneType' object is not callable" ∧
    apply_windows_safety_guard setrlimitFailEnv (some 1000000000)
      = Except.error "ValueError: current limit exceeds maximum limit" :=
  ⟨rfl, rfl, rfl⟩

/-- **C8 — amended.** `apply_windows_safety_guard` runs to completion without
raising only on the first installation in a process (while `os.putenv` is
still callable), provided additionally that no memory limit is requested
(`maximum_memory_bytes = None`, how the executor always calls it), or the
host is Windows, or the `resource` module is unavailable (that restriction is
skipped via the caught `ImportError`), or `setrlimit` accepts the limit; the
successful call leaves `os.putenv` disabled.  Every later installation in the
same process raises (`TypeError` at the `os.environ` store, or a `setrlimit`
error before it). -/
theorem apply_windows_safety_guard_amended (env : GuardEnv) (mb : Option ℕ) :
    (env.putenvDisabled = false →
      (mb = none ∨ env.isWindows = true ∨ env.resourceImportOk = false ∨
        env.setrlimitFailure = none) →
      apply_windows_safety_guard env mb
        = Except.ok { env with putenvDisabled := true }) ∧
    (env.putenvDisabled = true →
      ∃ e, apply_windows_safety_guard env mb = Except.error e) := by
  obtain ⟨w, r, s, p⟩ := env
  constructor
  · intro hp hOr
    subst hp
    cases mb with
    | none => rfl
    | some m =>
      cases w with
      | true => rfl
      | false =>
        cases r with
        | false => rfl
        | true =>
          cases s with
          | none => rfl
          | some e => simp at hOr
  · intro hp
    subst hp
    cases mb with
    | none => exact ⟨_, rfl⟩
    | some m =>
      cases w with
      | true => exact ⟨_, rfl⟩
      | false =>
        cases r with
        | false => exact ⟨_, rfl⟩
        | true =>
          cases s with
          | none => exact ⟨_, rfl⟩
          | some e => exact ⟨e, rfl⟩

theorem apply_windows_safety_guard_amended_witness :
    apply_windows_safety_guard ⟨true, true, some "ValueError", false⟩ (some 64)
      = Except.ok ⟨true, true, some "ValueError", true⟩ :=
  (apply_windows_safety_guard_amended ⟨true, true, some "ValueError", false⟩
    (some 64)).1 rfl (Or.inr (Or.inl rfl))

/-- **C9.** Inside `redirect_io`, the stream installed as the redirected
standard input is a `WriteOnlyStringIO`: each of its read operations —
`read`, `readline`, `readlines` — raises `IOError` immediately instead of
blocking, and it reports itself unreadable. -/
theorem redirect_io_stdin_reads_raise :
    redirect_io.stdin_stream.read = Except.error "IOError" ∧
    redirect_io.stdin_stream.readline = Except.error "IOError" ∧
    redirect_io.stdin_stream.readlines = Except.error "IOError" ∧
    redirect_io.stdin_stream.readable = false :=
  ⟨rfl, rfl, rfl, rfl⟩

lemma mem_foldl_keys {α : Type} [DecidableEq α] (lst : List (EvalRecord α))
    (x : Option α) :
    ∀ acc : List (Option α),
      (x ∈ lst.foldl
        (fun ks it => if it.task_id ∈ ks then ks else ks ++ [it.task_id]) acc
        ↔ x ∈ acc ∨ ∃ it ∈ lst, it.task_id = x) := by
  induction lst with
  | nil => intro acc; simp
  | cons a l ih =>
    intro acc
    rw [List.foldl_cons, ih]
    split_ifs with h
    · constructor
      · rintro (hx | ⟨it, hmem, hid⟩)
        · exact Or.inl hx
        · exact Or.inr ⟨it, List.mem_cons_of_mem a hmem, hid⟩
      · rintro (hx | ⟨it, hmem, hid⟩)
        · exact Or.inl hx
        · rcases List.mem_cons.mp hmem with rfl | hmem'
          · exact Or.inl (hid ▸ h)
          · exact Or.inr ⟨it, hmem', hid⟩
    · constructor
      · rintro (hx | ⟨it, hmem, hid⟩)
        · rcases List.mem_append.mp hx with hx' | hx'
          · exact Or.inl hx'
          · exact Or.inr ⟨a, List.mem_cons_self a l, (List.mem_singleton.mp hx').symm⟩
        · exact Or.inr ⟨it, List.mem_cons_of_mem a hmem, hid⟩
      · rintro (hx | ⟨it, hmem, hid⟩)
        · exact Or.inl (List.mem_append.mpr (Or.inl hx))
        · rcases List.mem_cons.mp hmem with rfl | hmem'
          · exact Or.inl (List.mem_append.mpr (Or.inr (List.mem_singleton.mpr hid.symm)))
          · exact Or.inr ⟨it, hmem', hid⟩

lemma mem_firstKeys_iff {α : Type} [DecidableEq α] (lst : List (EvalRecord α))
    (x : Option α) :
    x ∈ firstKeys lst ↔ ∃ it ∈ lst, it.task_id = x := by
  rw [firstKeys, mem_foldl_keys]
  simp

lemma firstKeys_snoc {α : Type} [DecidableEq α] (l : List (EvalRecord α))
    (it : EvalRecord α) :
    firstKeys (l ++ [it]) =
      if it.task_id ∈ firstKeys l then firstKeys l
      else firstKeys l ++ [it.task_id] := by
  simp [firstKeys, List.foldl_append]

lemma passCount_snoc {α : Type} [DecidableEq α] (l : List (EvalRecord α))
    (it : EvalRecord α) (g : Option α) :
    passCount (l ++ [it]) g = passCount l g
      + (if it.task_id = g ∧ it.passed = some true then 1 else 0) := by
  simp only [passCount, List.filter_append, List.length_append]
  congr 1
  by_cases h : it.task_id = g ∧ it.passed = some true
  · simp [h]
  · simp [List.filter, h]

lemma passCount_eq_zero_of_not_mem {α : Type} [DecidableEq α]
    (l : List (EvalRecord α)) (g : Option α) (h : g ∉ firstKeys l) :
    passCount l g = 0 := by
  rw [passCount, List.length_eq_zero]
  rw [List.filter_eq_nil_iff]
  intro it hmem
  simp only [decide_eq_true_eq, not_and]
  intro hid
  exact absurd ((mem_firstKeys_iff l g).mpr ⟨it, hmem, hid⟩) h

lemma group_state_eq {α : Type} [DecidableEq α] (lst : List (EvalRecord α)) :
    lst.foldl group_step [] =
      (firstKeys lst).map (fun g => (g, passCount lst g)) := by
  induction lst using List.reverseRecOn with
  | nil => rfl
  | append_singleton l it ih =>
    rw [List.foldl_append, List.foldl_cons, List.foldl_nil, ih, firstKeys_snoc]
    have hfst : ((firstKeys l).map (fun g => (g, passCount l g))).map Prod.fst
        = firstKeys l := by
      rw [List.map_map]
      exact List.map_id _
    by_cases hpass : it.passed = some true
    · by_cases hmem : it.task_id ∈ firstKeys l
      · rw [if_pos hmem]
        unfold group_step
        rw [hfst, if_pos hmem, if_pos hpass, List.map_map]
        apply List.map_congr_left
        intro g hg
        by_cases hgk : g = it.task_id
        · subst hgk
          simp [passCount_snoc, hpass]
        · simp [passCount_snoc, hpass, hgk, Ne.symm hgk]
      · rw [if_neg hmem]
        unfold group_step
        rw [hfst, if_neg hmem, if_pos hpass]
        rw [List.map_append, List.map_map, List.map_append]
        congr 1
        · apply List.map_congr_left
          intro g hg
          have hgk : g ≠ it.task_id := fun h => hmem (h ▸ hg)
          simp [passCount_snoc, hpass, hgk, Ne.symm hgk]
        · simp [passCount_snoc, hpass, passCount_eq_zero_of_not_mem l _ hmem]
    · by_cases hmem : it.task_id ∈ firstKeys l
      · rw [if_pos hmem]
        unfold group_step
        rw [hfst, if_pos hmem, if_neg hpass]
        apply List.map_congr_left
        intro g hg
        simp [passCount_snoc, hpass]
      · rw [if_neg hmem]
        unfold group_step
        rw [hfst, if_neg hmem, if_neg hpass]
        rw [List.map_append]
        congr 1
        · apply List.map_congr_left
          intro g hg
          simp [passCount_snoc, hpass]
        · simp [passCount_snoc, hpass, passCount_eq_zero_of_not_mem l _ hmem]

/-- **C10.** For every list of evaluation records, `group_and_count` with the
call site's keys (`group_key='task_id'`, `count_key='passed'`) returns one
integer per distinct `task_id`, in order of first appearance, equal to the
number of that task's records whose `passed` value is exactly `True`; a
`task_id` none of whose records passed (missing or non-`True` `passed`
included) still contributes an entry, whose count is `0` by
`passCount`'s definition, so zero-pass tasks enter the pass@k mean. -/
theorem group_and_count_spec {α : Type} [DecidableEq α]
    (lst : List (EvalRecord α)) :
    group_and_count lst = (firstKeys lst).map (passCount lst) := by
  unfold group_and_count
  rw [group_state_eq, List.map_map]
  rfl

end TwinkleCoderEval
